import Mathlib

set_option maxHeartbeats 1000000

/-!
Shallow embedding of the OpenJazzNX excerpt (src/src/io/gfx/video.cpp and
src/src/io/file.h) used to settle the claims of the specification.

The video code is modelled in the configuration the sources select:
SDL2 is defined (src/src/io/file.h line 27), and SCALE, WIZ, GP2X, CAANOO,
GAMESHELL, FULLSCREEN_ONLY and NO_RESIZE are not defined, so canvas == screen
and the SDL2 branches of every #ifdef are the live code.

Machine integers are modelled as Nat with explicit truncation (% 256 for the
uint8_t reads) at the points where the C code narrows.
-/

namespace OpenJazzNX

/-- An SDL_Color as used by the sources: three 8-bit channels.  Values stored
by the C code always fit in a byte; reads that narrow to uint8_t truncate
with % 256. -/
structure SDLColor where
  r : Nat
  g : Nat
  b : Nat
deriving DecidableEq

/-- A 256-entry palette (SDL_Color[256] / SDL_Palette with 256 colours). -/
def PaletteT : Type := Fin 256 → SDLColor

/-- The action of PaletteEffect::apply for one frame, as a function of the
mspf tick and the effectsStopped flag (paletteeffects.cpp is outside the
excerpt; the chain is an opaque transformation of the palette buffer it is
handed, as Section 4.5 of the design describes). -/
def EffectFn : Type := Nat → Bool → PaletteT → PaletteT

/-- A presented true-colour frame: the pixel words handed to the renderer. -/
def Frame : Type := List Nat

/-- Video::flip line 608: RGBColor = (r << 24) | (g << 16) | (b << 8) | 0xff,
where r, g, b are the palette channels read into uint8_t locals.  The three
fields occupy disjoint bit ranges, so the ORs are exact sums. -/
def packPixel (c : SDLColor) : Nat :=
  (c.r % 256) * 2 ^ 24 + (c.g % 256) * 2 ^ 16 + (c.b % 256) * 2 ^ 8 + 0xff

/-- SDL_SetPaletteColors(dst, src, first, amount): entries first..first+amount-1
of dst are replaced by entries 0..amount-1 of src; indices outside the
palette are clamped away by the 256-entry bound of Fin 256. -/
def setPaletteColors (dst src : PaletteT) (first amount : Nat) : PaletteT :=
  fun i =>
    if _h : first ≤ i.val ∧ i.val < first + amount then
      src ⟨i.val - first, Nat.lt_of_le_of_lt (Nat.sub_le _ _) i.isLt⟩
    else
      dst i

/-- The mutable Video state of video.cpp in the SDL2 configuration:
the two palette members, the screen surface's palette table
(screen->format->palette) and its indexed pixels (screen->pixels, one byte
per pixel), and the flag and geometry members the claims mention. -/
structure VideoState where
  logicalPalette : PaletteT
  currentPalette : PaletteT
  screenPaletteTable : PaletteT
  framebuffer : List (Fin 256)
  fakePalette : Bool
  fullscreen : Bool
  screenW : Nat
  screenH : Nat

/-- Video::Video (video.cpp lines 82-101): screen = NULL, the logical palette
is generated as r = g = b = count, and currentPalette = logicalPalette.
fakePalette is not initialised by the constructor; it is modelled with the
adversarial value false until reset assigns it.  The not-yet-created screen
surface contributes an all-zero palette table and no pixels. -/
def videoNew : VideoState where
  logicalPalette := fun i => ⟨i.val, i.val, i.val⟩
  currentPalette := fun i => ⟨i.val, i.val, i.val⟩
  screenPaletteTable := fun _ => ⟨0, 0, 0⟩
  framebuffer := []
  fakePalette := false
  fullscreen := false
  screenW := 0
  screenH := 0

/-- Video::getPalette (video.cpp lines 328-332). -/
def getPalette (s : VideoState) : PaletteT :=
  s.currentPalette

/-- Video::expose (video.cpp lines 471-483, SDL2 branch): the screen palette
table receives the logical palette and then the current palette, both over
the full range 0..255. -/
def expose (s : VideoState) : VideoState :=
  let afterLogical := setPaletteColors s.screenPaletteTable s.logicalPalette 0 256
  { s with screenPaletteTable := setPaletteColors afterLogical s.currentPalette 0 256 }

/-- Screen dimensions of the SDL2 path (video.cpp lines 212-219, from
video.h which is outside the excerpt; the surfaces are created at
DEFAULT_SCREEN_WIDTH x DEFAULT_SCREEN_HEIGHT).  No claim depends on the
numeric values. -/
def DEFAULT_SCREEN_WIDTH : Nat := 320

/-- See DEFAULT_SCREEN_WIDTH. -/
def DEFAULT_SCREEN_HEIGHT : Nat := 200

/-- Video::reset (video.cpp lines 188-280, SDL2 branch): records the requested
geometry, recreates the screen surface (fresh zeroed pixels and a fresh
palette table, which SDL fills with white), calls expose(), and finally sets
fakePalette = true unconditionally (line 276).  The SDL2 branch always
returns true.  The SDL_RenderClear/SDL_RenderPresent pair at lines 222-223
presents one cleared frame, reported in the Frame list. -/
def reset (width height : Nat) (s : VideoState) : VideoState × List Frame :=
  let s1 : VideoState :=
    { s with
      screenW := width
      screenH := height
      screenPaletteTable := fun _ => ⟨255, 255, 255⟩
      framebuffer :=
        List.replicate (DEFAULT_SCREEN_WIDTH * DEFAULT_SCREEN_HEIGHT) ⟨0, by decide⟩ }
  let s2 := expose s1
  ({ s2 with fakePalette := true },
   [List.replicate (DEFAULT_SCREEN_WIDTH * DEFAULT_SCREEN_HEIGHT) (packPixel ⟨0, 0, 0⟩)])

/-- Video::init (video.cpp lines 153-177): stores the fullscreen flag and
calls reset; in the SDL2 configuration reset always succeeds, so init
returns true.  Window-title and max-resolution bookkeeping touch no state
the claims mention. -/
def init (width height : Nat) (startFullscreen : Bool) (s : VideoState) : VideoState :=
  (reset width height { s with fullscreen := startFullscreen }).fst

/-- Video::flip (video.cpp lines 551-626, SDL2 branch, SCALE not defined).
If paletteEffects is non-null and fakePalette holds, a local
SDL_Color shownPalette[256] receives a memcpy of currentPalette, the effect
chain is applied to it, and it is pushed to the screen palette table over
0..255; in the direct branch the chain is applied through the external
palette interface inside PaletteEffect::apply, which touches none of the
modelled state.  Presentation then remaps every screen pixel through the
screen palette table with packPixel and presents that one frame. -/
def flip (mspf : Nat) (paletteEffects : Option EffectFn) (effectsStopped : Bool)
    (s : VideoState) : VideoState × List Frame :=
  let s1 : VideoState :=
    match paletteEffects with
    | some apply =>
        if s.fakePalette then
          let shownPalette := apply mspf effectsStopped s.currentPalette
          { s with screenPaletteTable :=
              setPaletteColors s.screenPaletteTable shownPalette 0 256 }
        else
          s
    | none => s
  (s1, [s1.framebuffer.map (fun idx => packPixel (s1.screenPaletteTable idx))])

/-- Video::clearScreen (video.cpp lines 634-645, desktop branch):
SDL_FillRect(canvas, NULL, index) with canvas == screen writes the low byte
of the colour index into every screen pixel. -/
def clearScreen (index : Nat) (s : VideoState) : VideoState :=
  { s with framebuffer :=
      List.replicate s.framebuffer.length ⟨index % 256, Nat.mod_lt _ (by decide)⟩ }

/-- SDL_MapRGB on an 8-bit palettized surface (external collaborator): the
index of the palette entry nearest to the requested colour by summed squared
channel distance, lowest index on ties. -/
def colorDist (c : SDLColor) (r g b : Nat) : Nat :=
  ((c.r % 256 : Int) - r).natAbs ^ 2 + ((c.g % 256 : Int) - g).natAbs ^ 2 +
    ((c.b % 256 : Int) - b).natAbs ^ 2

/-- See colorDist. -/
def mapRGB (p : PaletteT) (r g b : Nat) : Fin 256 :=
  (List.finRange 256).foldl
    (fun best i => if colorDist (p i) r g b < colorDist (p best) r g b then i else best)
    ⟨0, by decide⟩

/-- Video::setPalette (video.cpp lines 288-320, SDL2 branch): clears the
screen to SDL_MapRGB(screen->format, 0, 0, 0), presents one frame via
flip(0) (null effect chain), then replaces the full screen palette table
with the new palette and repoints currentPalette at it.  The diagnostic
printf loop reads the palette and changes nothing. -/
def setPalette (palette : PaletteT) (s : VideoState) : VideoState × List Frame :=
  let s1 := clearScreen (mapRGB s.screenPaletteTable 0 0 0).val s
  let r2 := flip 0 none false s1
  ({ r2.fst with
      screenPaletteTable := setPaletteColors r2.fst.screenPaletteTable palette 0 256
      currentPalette := palette },
   r2.snd)

/-- Video::changePalette (video.cpp lines 342-352, SDL2 branch): a single
SDL_SetPaletteColors(screen->format->palette, palette, first, amount); no
blank, no present, and currentPalette is not touched.  first is an
unsigned char in the source, hence Fin 256. -/
def changePalette (palette : PaletteT) (first : Fin 256) (amount : Nat)
    (s : VideoState) : VideoState × List Frame :=
  ({ s with screenPaletteTable :=
      setPaletteColors s.screenPaletteTable palette first.val amount }, [])

/-- Video::restoreSurfacePalette (video.cpp lines 360-370) writes the logical
palette into an external surface passed by the caller; it reads
logicalPalette and mutates no Video member. -/
def restoreSurfacePalette (s : VideoState) : VideoState :=
  s

/-- The events Video::update (video.cpp lines 491-541) reacts to in the SDL2,
not-FULLSCREEN_ONLY configuration: only the Alt+Enter keydown case is live
(the resize and expose cases are compiled out under SDL2). -/
inductive VideoEvent where
  | altEnterKey
  | otherEvent

/-- Video::update (video.cpp lines 491-541, SDL2 branch): Alt+Enter toggles
fullscreen and calls reset(screenW, screenH); every other event leaves the
state alone. -/
def update (ev : VideoEvent) (s : VideoState) : VideoState :=
  match ev with
  | VideoEvent.altEnterKey =>
      (reset s.screenW s.screenH { s with fullscreen := !s.fullscreen }).fst
  | VideoEvent.otherEvent => s

/-- The public operations of Video that can run after initialisation, used to
quantify over every reachable state. -/
inductive VideoOp where
  | opReset (w h : Nat)
  | opSetPalette (p : PaletteT)
  | opChangePalette (p : PaletteT) (first : Fin 256) (amount : Nat)
  | opFlip (mspf : Nat) (eff : Option EffectFn) (stopped : Bool)
  | opClearScreen (idx : Nat)
  | opExpose
  | opRestoreSurfacePalette
  | opUpdate (ev : VideoEvent)

/-- State transition of one Video operation (presented frames discarded). -/
def applyOp (s : VideoState) : VideoOp → VideoState
  | VideoOp.opReset w h => (reset w h s).fst
  | VideoOp.opSetPalette p => (setPalette p s).fst
  | VideoOp.opChangePalette p first amount => (changePalette p first amount s).fst
  | VideoOp.opFlip mspf eff stopped => (flip mspf eff stopped s).fst
  | VideoOp.opClearScreen idx => clearScreen idx s
  | VideoOp.opExpose => expose s
  | VideoOp.opRestoreSurfacePalette => restoreSurfacePalette s
  | VideoOp.opUpdate ev => update ev s

/-- Runs a sequence of Video operations. -/
def runOps (s : VideoState) : List VideoOp → VideoState
  | [] => s
  | op :: rest => runOps (applyOp s op) rest

/-- States reachable after a successful Video::init followed by any sequence
of Video operations. -/
def Reachable (s : VideoState) : Prop :=
  ∃ (w h : Nat) (fs : Bool) (ops : List VideoOp),
    runOps (init w h fs videoNew) ops = s

/-- The guard of the direct-mode (non-scratch) branch of Video::flip
(video.cpp line 586): it executes exactly when an effect chain is present
and fakePalette is false. -/
def flipTakesDirectBranch (paletteEffects : Option EffectFn) (s : VideoState) : Bool :=
  paletteEffects.isSome && !s.fakePalette

/-- The error taxonomy of Section 7 of the design, attached to every failed
load or seek operation of the File class. -/
inductive FileError where
  | TruncatedStream
  | DecodeOverrun
  | DecodeUnderrun
  | CorruptData
  | OutOfRange
  | ResourceNotFound
deriving DecidableEq

/-- A File as a byte stream: the underlying bytes and the read cursor
(src/src/io/file.h declares the class; the stream contents stand for the
opened file). -/
structure ByteStream where
  data : List Nat
  pos : Nat

/-- Modelled from the spec: File::seek (declared at src/src/io/file.h line 53;
its definition is not part of the excerpt).  Section 4.1: relative or
absolute repositioning; fails with OutOfRange if the target is negative or
beyond the stream end. -/
def fileSeek (f : ByteStream) (offset : Int) (fromStart : Bool) :
    Except FileError ByteStream :=
  let target : Int := if fromStart then offset else (f.pos : Int) + offset
  if target < 0 ∨ (f.data.length : Int) < target then
    Except.error FileError.OutOfRange
  else
    Except.ok { f with pos := target.toNat }

/-- Modelled from the spec: File::tell / position() (declared at
src/src/io/file.h line 54): returns the current cursor. -/
def fileTell (f : ByteStream) : Nat :=
  f.pos

/-- Modelled from the spec: File::loadRLE (declared at src/src/io/file.h
line 63; its definition is not part of the excerpt).  Section 4.2: repeatedly
read a control byte; high bit set means the low 7 bits + 1 literal bytes are
copied verbatim from the stream, high bit clear means the low 7 bits + 1
copies of the single following byte are written; decoding stops when exactly
the declared number of bytes has been produced.  Per Sections 4.2 and 8, a
run claiming more output than the declared length fails with DecodeOverrun,
and an input exhausted before the declared length is produced fails with
DecodeUnderrun.  The first argument is the remaining compressed input, the
second the number of output bytes still owed. -/
def rleDecode (input : List Nat) (remaining : Nat) : Except FileError (List Nat) :=
  if remaining = 0 then
    Except.ok []
  else
    match input with
    | [] => Except.error FileError.DecodeUnderrun
    | c :: rest =>
        let ctrl := c % 256
        if 128 ≤ ctrl then
          let cnt := ctrl % 128 + 1
          if remaining < cnt then Except.error FileError.DecodeOverrun
          else if rest.length < cnt then Except.error FileError.DecodeUnderrun
          else
            match rleDecode (rest.drop cnt) (remaining - cnt) with
            | Except.ok out => Except.ok ((rest.take cnt).map (fun b => b % 256) ++ out)
            | Except.error e => Except.error e
        else
          match rest with
          | [] => Except.error FileError.DecodeUnderrun
          | b :: rest2 =>
              let cnt := ctrl % 128 + 1
              if remaining < cnt then Except.error FileError.DecodeOverrun
              else
                match rleDecode rest2 (remaining - cnt) with
                | Except.ok out => Except.ok (List.replicate cnt (b % 256) ++ out)
                | Except.error e => Except.error e
termination_by input.length
decreasing_by
  · simp only [List.length_drop, List.length_cons]
    omega
  · simp only [List.length_cons]
    omega

/-- Modelled from the spec: the back-reference copy step of File::loadLZ
(declared at src/src/io/file.h line 65; its definition is not part of the
excerpt).  Section 4.3: a back-reference copies the given number of bytes
starting the given distance behind the current output position, byte by byte
forward so that the source may overlap the bytes being written; a reference
before the start of the output buffer is CorruptData.  The first argument is
the output produced so far. -/
def lzCopyBackRef (out : List Nat) (distance : Nat) : Nat → Except FileError (List Nat)
  | 0 => Except.ok out
  | Nat.succ len =>
      if h1 : distance = 0 then Except.error FileError.CorruptData
      else if h2 : out.length < distance then Except.error FileError.CorruptData
      else
        lzCopyBackRef
          (out ++ [out.get ⟨out.length - distance,
            Nat.sub_lt (Nat.lt_of_lt_of_le (Nat.pos_of_ne_zero h1) (Nat.le_of_not_lt h2))
              (Nat.pos_of_ne_zero h1)⟩])
          distance len

deriving instance DecidableEq for Except

/-- A sample physical palette used by concrete witnesses. -/
def samplePalette : PaletteT :=
  fun i => ⟨i.val, (i.val * 2) % 256, 255 - i.val⟩

/-- A second sample palette, used as the argument of palette updates. -/
def samplePalette2 : PaletteT :=
  fun i => ⟨200, i.val, 7⟩

/-- A sample effect chain: shifts the red channel of every entry, the
fixed-hue shift of the specification's compositing example. -/
def sampleEffect : EffectFn :=
  fun _ _ p i => ⟨((p i).r + 16) % 256, (p i).g, (p i).b⟩

/-- A sample post-initialisation state with a small framebuffer. -/
def sampleState : VideoState :=
  { videoNew with
    fakePalette := true
    currentPalette := samplePalette
    screenPaletteTable := fun _ => ⟨1, 2, 3⟩
    framebuffer := [⟨0, by decide⟩, ⟨17, by decide⟩, ⟨255, by decide⟩] }

/-- Pushing a palette over the full range 0..255 replaces the table. -/
theorem setPaletteColors_full (dst src : PaletteT) :
    setPaletteColors dst src 0 256 = src := by
  funext i
  unfold setPaletteColors
  rw [dif_pos ⟨Nat.zero_le _, Nat.lt_of_lt_of_le i.isLt (by omega)⟩]
  exact congrArg src (Fin.ext (Nat.sub_zero _))

/-- No Video operation writes to the logicalPalette member. -/
theorem applyOp_logicalPalette (s : VideoState) (op : VideoOp) :
    (applyOp s op).logicalPalette = s.logicalPalette := by
  cases op with
  | opReset w h => rfl
  | opSetPalette p => rfl
  | opChangePalette p first amount => rfl
  | opFlip mspf eff stopped =>
      cases eff with
      | none => rfl
      | some apply =>
          cases hfp : s.fakePalette <;> simp [applyOp, flip, hfp]
  | opClearScreen idx => rfl
  | opExpose => rfl
  | opRestoreSurfacePalette => rfl
  | opUpdate ev => cases ev <;> rfl

/-- logicalPalette is invariant under any sequence of Video operations. -/
theorem runOps_logicalPalette (ops : List VideoOp) (s : VideoState) :
    (runOps s ops).logicalPalette = s.logicalPalette := by
  induction ops generalizing s with
  | nil => rfl
  | cons op rest ih => rw [runOps, ih, applyOp_logicalPalette]

/-- Video::reset always leaves fakePalette true (video.cpp line 276). -/
theorem reset_fakePalette (w h : Nat) (s : VideoState) :
    (reset w h s).fst.fakePalette = true :=
  rfl

/-- Every Video operation keeps fakePalette true once it holds. -/
theorem applyOp_fakePalette (s : VideoState) (op : VideoOp)
    (h : s.fakePalette = true) :
    (applyOp s op).fakePalette = true := by
  cases op with
  | opReset w h2 => rfl
  | opSetPalette p => exact h
  | opChangePalette p first amount => exact h
  | opFlip mspf eff stopped =>
      cases eff with
      | none => exact h
      | some apply => simp [applyOp, flip, h]
  | opClearScreen idx => exact h
  | opExpose => exact h
  | opRestoreSurfacePalette => exact h
  | opUpdate ev => cases ev <;> first | rfl | exact h

/-- fakePalette stays true under any sequence of Video operations. -/
theorem runOps_fakePalette (ops : List VideoOp) (s : VideoState)
    (h : s.fakePalette = true) :
    (runOps s ops).fakePalette = true := by
  induction ops generalizing s with
  | nil => exact h
  | cons op rest ih => exact ih _ (applyOp_fakePalette s op h)

/-- C5: after Video construction the logical palette is the identity mapping
(logicalPalette[i].r = .g = .b = i for every i), currentPalette is the
logical palette immediately after construction, and no sequence of Video
operations (from construction, or from any initialisation) ever changes the
logical palette. -/
theorem c5_logical_palette_identity_immutable :
    (∀ i : Fin 256, videoNew.logicalPalette i = ⟨i.val, i.val, i.val⟩) ∧
    videoNew.currentPalette = videoNew.logicalPalette ∧
    (∀ ops : List VideoOp,
      (runOps videoNew ops).logicalPalette = videoNew.logicalPalette) ∧
    (∀ (w h : Nat) (fs : Bool) (ops : List VideoOp),
      (runOps (init w h fs videoNew) ops).logicalPalette = videoNew.logicalPalette) := by
  refine ⟨fun i => rfl, rfl, fun ops => runOps_logicalPalette ops _, ?_⟩
  intro w h fs ops
  rw [runOps_logicalPalette]
  rfl

/-- C9: every call to Video::reset sets fakePalette to true unconditionally,
so in every state reachable after initialisation fakePalette is true and the
guard of the direct-mode (non-scratch) branch of Video::flip is false for
every effect chain. -/
theorem c9_fakePalette_invariant (s : VideoState) (eff : Option EffectFn)
    (hs : Reachable s) :
    (∀ (w h : Nat) (s0 : VideoState), (reset w h s0).fst.fakePalette = true) ∧
    s.fakePalette = true ∧
    flipTakesDirectBranch eff s = false := by
  obtain ⟨w, h, fs, ops, hrun⟩ := hs
  have hfp : s.fakePalette = true := by
    rw [← hrun]
    exact runOps_fakePalette ops _ rfl
  refine ⟨fun w2 h2 s0 => rfl, hfp, ?_⟩
  simp [flipTakesDirectBranch, hfp]

/-- Witness for C9 at a concrete initialisation. -/
theorem c9_witness :
    Reachable (init 320 200 false videoNew) ∧
    (init 320 200 false videoNew).fakePalette = true ∧
    flipTakesDirectBranch (some sampleEffect) (init 320 200 false videoNew) = false :=
  ⟨⟨320, 200, false, [], rfl⟩,
   (c9_fakePalette_invariant _ (some sampleEffect) ⟨320, 200, false, [], rfl⟩).2⟩

/-- C1: when fakePalette holds and an effect chain is supplied, Video::flip
pushes to the display's palette table exactly the effect chain applied to a
scratch copy of the current physical palette, and the 256 entries of
currentPalette are bitwise unchanged when flip returns. -/
theorem c1_flip_effects_on_scratch_copy (s : VideoState) (mspf : Nat)
    (stopped : Bool) (eff : EffectFn) (h : s.fakePalette = true) :
    (flip mspf (some eff) stopped s).fst.screenPaletteTable =
      eff mspf stopped s.currentPalette ∧
    (flip mspf (some eff) stopped s).fst.currentPalette = s.currentPalette := by
  constructor
  · simp [flip, h, setPaletteColors_full]
  · simp [flip, h]

/-- Witness for C1: at the sample state the hue-shifting chain acts on a
scratch copy (the pushed table differs from the physical palette at entry 0)
while currentPalette is untouched. -/
theorem c1_witness :
    sampleState.fakePalette = true ∧
    (flip 20 (some sampleEffect) false sampleState).fst.currentPalette =
      sampleState.currentPalette ∧
    (flip 20 (some sampleEffect) false sampleState).fst.screenPaletteTable ⟨0, by decide⟩ ≠
      sampleState.currentPalette ⟨0, by decide⟩ :=
  ⟨rfl,
   (c1_flip_effects_on_scratch_copy sampleState 20 false sampleEffect rfl).2,
   by decide⟩

/-- C2: in emulated mode with an effect chain, Video::flip presents exactly
one frame whose length is the framebuffer's, the palette table it has just
pushed is the scratch palette, and every output pixel is the packed colour
obtained by looking the pixel's 8-bit index up in that table. -/
theorem c2_flip_remaps_every_pixel (s : VideoState) (mspf : Nat)
    (stopped : Bool) (eff : EffectFn) (h : s.fakePalette = true) :
    ∃ frame : Frame,
      (flip mspf (some eff) stopped s).snd = [frame] ∧
      frame.length = s.framebuffer.length ∧
      (flip mspf (some eff) stopped s).fst.screenPaletteTable =
        eff mspf stopped s.currentPalette ∧
      ∀ i : Nat, i < s.framebuffer.length →
        frame.getD i 0 =
          packPixel ((flip mspf (some eff) stopped s).fst.screenPaletteTable
            (s.framebuffer.getD i 0)) := by
  refine ⟨(flip mspf (some eff) stopped s).fst.framebuffer.map
    (fun idx => packPixel ((flip mspf (some eff) stopped s).fst.screenPaletteTable idx)),
    ?_, ?_, ?_, ?_⟩
  · simp [flip, h]
  · simp [flip, h]
  · simp [flip, h, setPaletteColors_full]
  · intro i hi
    have hfb : (flip mspf (some eff) stopped s).fst.framebuffer = s.framebuffer := by
      simp [flip, h]
    rw [hfb]
    rw [List.getD_eq_getElem?_getD, List.getElem?_map,
      List.getElem?_eq_getElem hi]
    simp [List.getD_eq_getElem?_getD, List.getElem?_eq_getElem hi]

/-- Witness for C2 at the sample state, reading back pixel 1. -/
theorem c2_witness :
    sampleState.fakePalette = true ∧
    (∃ frame : Frame,
      (flip 20 (some sampleEffect) false sampleState).snd = [frame] ∧
      frame.length = sampleState.framebuffer.length ∧
      (flip 20 (some sampleEffect) false sampleState).fst.screenPaletteTable =
        sampleEffect 20 false sampleState.currentPalette ∧
      ∀ i : Nat, i < sampleState.framebuffer.length →
        frame.getD i 0 =
          packPixel ((flip 20 (some sampleEffect) false sampleState).fst.screenPaletteTable
            (sampleState.framebuffer.getD i 0))) :=
  ⟨rfl, c2_flip_remaps_every_pixel sampleState 20 false sampleEffect rfl⟩

/-- C3: Video::setPalette first blanks the framebuffer to the screen-format
black index and presents exactly one frame, rendered through the palette
table as it was before the call; only then does it replace the full
256-entry display palette, after which getPalette returns the new palette. -/
theorem c3_setPalette_blank_present_swap (p : PaletteT) (s : VideoState) :
    (setPalette p s).snd =
      [List.replicate s.framebuffer.length
        (packPixel (s.screenPaletteTable (mapRGB s.screenPaletteTable 0 0 0)))] ∧
    (setPalette p s).fst.framebuffer =
      List.replicate s.framebuffer.length (mapRGB s.screenPaletteTable 0 0 0) ∧
    (setPalette p s).fst.screenPaletteTable = p ∧
    getPalette (setPalette p s).fst = p := by
  have hidx : (mapRGB s.screenPaletteTable 0 0 0).val % 256 =
      (mapRGB s.screenPaletteTable 0 0 0).val :=
    Nat.mod_eq_of_lt (mapRGB s.screenPaletteTable 0 0 0).isLt
  refine ⟨?_, ?_, ?_, rfl⟩
  · simp only [setPalette, flip, clearScreen]
    simp [List.map_replicate, Fin.ext_iff, hidx]
  · simp only [setPalette, flip, clearScreen]
    simp [Fin.ext_iff, hidx]
  · simp [setPalette, flip, clearScreen, setPaletteColors_full]

/-- C4: Video::changePalette rewrites exactly the palette-table entries with
indices in [first, first+amount): entries outside that range are bitwise
unchanged, entries inside receive the supplied colours, and the call neither
touches the framebuffer nor presents a frame. -/
theorem c4_changePalette_partial (p : PaletteT) (first : Fin 256) (amount : Nat)
    (s : VideoState) :
    (∀ i : Fin 256, i.val < first.val ∨ first.val + amount ≤ i.val →
      (changePalette p first amount s).fst.screenPaletteTable i =
        s.screenPaletteTable i) ∧
    (∀ i : Fin 256, first.val ≤ i.val → i.val < first.val + amount →
      (changePalette p first amount s).fst.screenPaletteTable i =
        p ⟨i.val - first.val, Nat.lt_of_le_of_lt (Nat.sub_le _ _) i.isLt⟩) ∧
    (changePalette p first amount s).fst.framebuffer = s.framebuffer ∧
    (changePalette p first amount s).snd = [] := by
  refine ⟨fun i hi => ?_, fun i h1 h2 => ?_, rfl, rfl⟩
  · show setPaletteColors s.screenPaletteTable p first.val amount i = _
    unfold setPaletteColors
    rw [dif_neg]
    omega
  · show setPaletteColors s.screenPaletteTable p first.val amount i = _
    unfold setPaletteColors
    rw [dif_pos ⟨h1, h2⟩]

/-- Witness for C4: the specification's first=10, amount=5 example — entry 20
is untouched, entry 12 receives colour 2 of the supplied palette, and no
blank or present happens. -/
theorem c4_witness :
    (changePalette samplePalette2 ⟨10, by decide⟩ 5 sampleState).fst.screenPaletteTable
        ⟨20, by decide⟩ = sampleState.screenPaletteTable ⟨20, by decide⟩ ∧
    (changePalette samplePalette2 ⟨10, by decide⟩ 5 sampleState).fst.screenPaletteTable
        ⟨12, by decide⟩ = samplePalette2 ⟨2, by decide⟩ ∧
    (changePalette samplePalette2 ⟨10, by decide⟩ 5 sampleState).fst.framebuffer =
      sampleState.framebuffer ∧
    (changePalette samplePalette2 ⟨10, by decide⟩ 5 sampleState).snd = [] := by
  have h := c4_changePalette_partial samplePalette2 ⟨10, by decide⟩ 5 sampleState
  exact ⟨h.1 ⟨20, by decide⟩ (by decide), h.2.1 ⟨12, by decide⟩ (by decide) (by decide),
    h.2.2.1, h.2.2.2⟩

/-- C10: Video::changePalette leaves getPalette (the currentPalette reference
and its entries) unchanged, and a later flip with a non-null effect chain in
emulated mode rebuilds the pushed table from currentPalette over all 256
indices, so the table it installs is the same as if changePalette had never
run. -/
theorem c10_changePalette_discarded_by_flip (s : VideoState) (p : PaletteT)
    (first : Fin 256) (amount : Nat) (mspf : Nat) (stopped : Bool)
    (eff : EffectFn) (h : s.fakePalette = true) :
    getPalette (changePalette p first amount s).fst = getPalette s ∧
    (flip mspf (some eff) stopped
        (changePalette p first amount s).fst).fst.screenPaletteTable =
      eff mspf stopped s.currentPalette ∧
    (flip mspf (some eff) stopped
        (changePalette p first amount s).fst).fst.screenPaletteTable =
      (flip mspf (some eff) stopped s).fst.screenPaletteTable := by
  refine ⟨rfl, ?_, ?_⟩
  · simp [changePalette, flip, h, setPaletteColors_full]
  · simp [changePalette, flip, h, setPaletteColors_full]

/-- Witness for C10: after the first=10, amount=5 update, flipping with the
sample chain yields the same pushed table as flipping without the update. -/
theorem c10_witness :
    sampleState.fakePalette = true ∧
    getPalette (changePalette samplePalette2 ⟨10, by decide⟩ 5 sampleState).fst =
      getPalette sampleState ∧
    (flip 20 (some sampleEffect) false
        (changePalette samplePalette2 ⟨10, by decide⟩ 5 sampleState).fst).fst.screenPaletteTable =
      (flip 20 (some sampleEffect) false sampleState).fst.screenPaletteTable :=
  ⟨rfl,
   (c10_changePalette_discarded_by_flip sampleState samplePalette2 ⟨10, by decide⟩ 5
      20 false sampleEffect rfl).1,
   (c10_changePalette_discarded_by_flip sampleState samplePalette2 ⟨10, by decide⟩ 5
      20 false sampleEffect rfl).2.2⟩

/-- Every successful RLE decode yields exactly the declared number of bytes. -/
theorem rleDecode_length (input : List Nat) (n : Nat) :
    ∀ out : List Nat, rleDecode input n = Except.ok out → out.length = n := by
  induction input, n using rleDecode.induct with
  | case1 input =>
      intro out h
      rw [rleDecode.eq_def] at h
      simp at h
      simp [← h]
  | case2 n hn =>
      intro out h
      rw [rleDecode.eq_def] at h
      simp [hn] at h
  | case3 n hn b rest2 ctrl hctrl cnt hlt =>
      intro out h
      have hc : 128 ≤ b % 256 := hctrl
      have hl : n < b % 256 % 128 + 1 := hlt
      rw [rleDecode.eq_def] at h
      simp [hn, hc, hl] at h
  | case4 n hn b rest2 ctrl hctrl cnt hlt hlen =>
      intro out h
      have hc : 128 ≤ b % 256 := hctrl
      have hl : ¬n < b % 256 % 128 + 1 := hlt
      have hl2 : rest2.length < b % 256 % 128 + 1 := hlen
      rw [rleDecode.eq_def] at h
      simp [hn, hc, hl, hl2] at h
  | case5 n hn b rest2 ctrl hctrl cnt hlt hlen out2 heq ih =>
      intro out h
      have hc : 128 ≤ b % 256 := hctrl
      have hl : ¬n < b % 256 % 128 + 1 := hlt
      have hl2 : ¬rest2.length < b % 256 % 128 + 1 := hlen
      have heq2 : rleDecode (rest2.drop (b % 256 % 128 + 1)) (n - (b % 256 % 128 + 1)) =
          Except.ok out2 := heq
      rw [rleDecode.eq_def] at h
      simp [hn, hc, hl, hl2, heq2] at h
      have hlen2 : out2.length = n - (b % 256 % 128 + 1) := ih out2 heq
      rw [← h]
      simp [List.length_take, hlen2]
      omega
  | case6 n hn b rest2 ctrl hctrl cnt hlt hlen e heq ih =>
      intro out h
      have hc : 128 ≤ b % 256 := hctrl
      have hl : ¬n < b % 256 % 128 + 1 := hlt
      have hl2 : ¬rest2.length < b % 256 % 128 + 1 := hlen
      have heq2 : rleDecode (rest2.drop (b % 256 % 128 + 1)) (n - (b % 256 % 128 + 1)) =
          Except.error e := heq
      rw [rleDecode.eq_def] at h
      simp [hn, hc, hl, hl2, heq2] at h
  | case7 n hn b ctrl hctrl =>
      intro out h
      have hc : ¬128 ≤ b % 256 := hctrl
      rw [rleDecode.eq_def] at h
      simp [hn, hc] at h
  | case8 n hn b ctrl hctrl b2 rest2 cnt hlt =>
      intro out h
      have hc : ¬128 ≤ b % 256 := hctrl
      have hl : n < b % 256 % 128 + 1 := hlt
      rw [rleDecode.eq_def] at h
      simp [hn, hc, hl] at h
  | case9 n hn b ctrl hctrl b2 rest2 cnt hlt out2 heq ih =>
      intro out h
      have hc : ¬128 ≤ b % 256 := hctrl
      have hl : ¬n < b % 256 % 128 + 1 := hlt
      have heq2 : rleDecode rest2 (n - (b % 256 % 128 + 1)) = Except.ok out2 := heq
      rw [rleDecode.eq_def] at h
      simp [hn, hc, hl, heq2] at h
      have hlen2 : out2.length = n - (b % 256 % 128 + 1) := ih out2 heq
      rw [← h]
      simp [hlen2]
      omega
  | case10 n hn b ctrl hctrl b2 rest2 cnt hlt e heq ih =>
      intro out h
      have hc : ¬128 ≤ b % 256 := hctrl
      have hl : ¬n < b % 256 % 128 + 1 := hlt
      have heq2 : rleDecode rest2 (n - (b % 256 % 128 + 1)) = Except.error e := heq
      rw [rleDecode.eq_def] at h
      simp [hn, hc, hl, heq2] at h

/-- A literal-run control byte demanding more output than remains owed makes
the decode fail with DecodeOverrun. -/
theorem rleDecode_overrun_literal (c : Nat) (rest : List Nat) (n : Nat)
    (hn : 0 < n) (hc : 128 ≤ c % 256) (hlt : n < c % 256 % 128 + 1) :
    rleDecode (c :: rest) n = Except.error FileError.DecodeOverrun := by
  rw [rleDecode.eq_def]
  have hn2 : ¬n = 0 := by omega
  simp [hn2, hc, hlt]

/-- A repeat-run control byte demanding more output than remains owed makes
the decode fail with DecodeOverrun. -/
theorem rleDecode_overrun_repeat (c b : Nat) (rest2 : List Nat) (n : Nat)
    (hn : 0 < n) (hc : c % 256 < 128) (hlt : n < c % 256 % 128 + 1) :
    rleDecode (c :: b :: rest2) n = Except.error FileError.DecodeOverrun := by
  rw [rleDecode.eq_def]
  have hn2 : ¬n = 0 := by omega
  have hc2 : ¬128 ≤ c % 256 := by omega
  simp [hn2, hc2, hlt]

/-- A successful back-reference copy appends exactly the requested number of
bytes, preserves the existing output, and every appended byte equals the byte
the given distance behind it in the final output. -/
theorem lzCopyBackRef_spec : ∀ (len : Nat) (out : List Nat) (d : Nat) (res : List Nat),
    0 < d → lzCopyBackRef out d len = Except.ok res →
    res.length = out.length + len ∧
    (∀ i, i < out.length → res.getD i 0 = out.getD i 0) ∧
    (∀ k, k < len → res.getD (out.length + k) 0 = res.getD (out.length + k - d) 0) := by
  intro len
  induction len with
  | zero =>
      intro out d res hd h
      simp only [lzCopyBackRef] at h
      cases h
      exact ⟨by simp, fun i hi => rfl, fun k hk => absurd hk (by omega)⟩
  | succ len ih =>
      intro out d res hd h
      simp only [lzCopyBackRef] at h
      rw [dif_neg (by omega : ¬d = 0)] at h
      by_cases h2 : out.length < d
      · rw [dif_pos h2] at h
        exact absurd h (by simp)
      · rw [dif_neg h2] at h
        set x := out.get ⟨out.length - d, _⟩ with hx
        obtain ⟨hlen, hpre, hself⟩ := ih (out ++ [x]) d res hd h
        have hxlen : (out ++ [x]).length = out.length + 1 := by simp
        rw [hxlen] at hlen hpre hself
        have houtpos : d ≤ out.length := Nat.le_of_not_lt h2
        refine ⟨by omega, ?_, ?_⟩
        · intro i hi
          rw [hpre i (by omega), List.getD_append _ _ _ _ hi]
        · intro k hk
          match k with
          | 0 =>
              have hL : res.getD (out.length + 0) 0 = x := by
                rw [Nat.add_zero, hpre out.length (by omega),
                  List.getD_append_right _ _ _ _ (Nat.le_refl _), Nat.sub_self]
                rfl
              have hsub : out.length - d < out.length := by omega
              have hR : res.getD (out.length + 0 - d) 0 = out.getD (out.length - d) 0 := by
                rw [Nat.add_zero, hpre (out.length - d) (by omega),
                  List.getD_append _ _ _ _ hsub]
              rw [hL, hR, hx]
              rw [List.getD_eq_getElem _ _ hsub]
              rfl
          | Nat.succ k2 =>
              have e1 : out.length + (k2 + 1) = out.length + 1 + k2 := by omega
              rw [e1]
              exact hself k2 (by omega)

/-- C6: RLE decoding follows the control-byte scheme of the specification —
a successful decode of declared length N yields exactly N bytes, and a
control byte (of either kind) claiming more output than the declared length
fails with DecodeOverrun. -/
theorem c6_rle_decode_contract :
    (∀ (input : List Nat) (n : Nat) (out : List Nat),
      rleDecode input n = Except.ok out → out.length = n) ∧
    (∀ (c : Nat) (rest : List Nat) (n : Nat), 0 < n → 128 ≤ c % 256 →
      n < c % 256 % 128 + 1 →
      rleDecode (c :: rest) n = Except.error FileError.DecodeOverrun) ∧
    (∀ (c b : Nat) (rest2 : List Nat) (n : Nat), 0 < n → c % 256 < 128 →
      n < c % 256 % 128 + 1 →
      rleDecode (c :: b :: rest2) n = Except.error FileError.DecodeOverrun) :=
  ⟨fun input n out h => rleDecode_length input n out h,
   rleDecode_overrun_literal, rleDecode_overrun_repeat⟩

/-- Witness for C6: a three-byte literal run decodes to exactly the declared
three bytes; a literal run of four against a declared length of two, and a
repeat run of six against a declared length of two, both fail with
DecodeOverrun. -/
theorem c6_witness :
    (rleDecode [130, 7, 8, 9] 3 = Except.ok [7, 8, 9] ∧
      ([7, 8, 9] : List Nat).length = 3) ∧
    (0 < 2 ∧ 128 ≤ 131 % 256 ∧ 2 < 131 % 256 % 128 + 1 ∧
      rleDecode [131, 7, 8, 9] 2 = Except.error FileError.DecodeOverrun) ∧
    (0 < 2 ∧ 5 % 256 < 128 ∧ 2 < 5 % 256 % 128 + 1 ∧
      rleDecode [5, 9] 2 = Except.error FileError.DecodeOverrun) := by
  have h : rleDecode [130, 7, 8, 9] 3 = Except.ok [7, 8, 9] := by
    simp [rleDecode]
  refine ⟨⟨h, c6_rle_decode_contract.1 [130, 7, 8, 9] 3 [7, 8, 9] h⟩, ?_, ?_⟩
  · exact ⟨by decide, by decide, by decide,
      c6_rle_decode_contract.2.1 131 [7, 8, 9] 2 (by decide) (by decide) (by decide)⟩
  · exact ⟨by decide, by decide, by decide,
      c6_rle_decode_contract.2.2 5 9 [] 2 (by decide) (by decide) (by decide)⟩

/-- C7: LZ back-references are copied forward byte-by-byte: the specification
fixture (distance 1, length 5 against the single byte 0xAB) yields five
copies of 0xAB, and in general a successful (distance, length) copy appends
length bytes, each equal to the byte distance positions behind it in the
final output, even when the ranges overlap. -/
theorem c7_lz_backref_overlap :
    lzCopyBackRef [0xAB] 1 5 = Except.ok [0xAB, 0xAB, 0xAB, 0xAB, 0xAB, 0xAB] ∧
    ∀ (out : List Nat) (d len : Nat) (res : List Nat),
      0 < d → lzCopyBackRef out d len = Except.ok res →
      res.length = out.length + len ∧
      (∀ i, i < out.length → res.getD i 0 = out.getD i 0) ∧
      (∀ k, k < len → res.getD (out.length + k) 0 = res.getD (out.length + k - d) 0) :=
  ⟨by decide, fun out d len res hd h => lzCopyBackRef_spec len out d res hd h⟩

/-- Witness for C7: a distance-2, length-3 copy over [1, 2] produces the
overlapped continuation [1, 2, 1, 2, 1] of the declared total length. -/
theorem c7_witness :
    (0 : Nat) < 2 ∧ lzCopyBackRef [1, 2] 2 3 = Except.ok [1, 2, 1, 2, 1] ∧
    ([1, 2, 1, 2, 1] : List Nat).length = ([1, 2] : List Nat).length + 3 := by
  have h : lzCopyBackRef [1, 2] 2 3 = Except.ok [1, 2, 1, 2, 1] := by decide
  exact ⟨by decide, h,
    (c7_lz_backref_overlap.2 [1, 2] 2 3 [1, 2, 1, 2, 1] (by decide) h).1⟩

/-- C8: seek(-1, fromStart) and seek(length+1, fromStart) fail with
OutOfRange, seek(0, fromStart) succeeds and leaves position() at 0, and in
general seek fails with OutOfRange exactly when the target offset is
negative or beyond the stream end. -/
theorem c8_seek_bounds (f : ByteStream) (offset : Int) (fromStart : Bool) :
    fileSeek f (-1) true = Except.error FileError.OutOfRange ∧
    fileSeek f ((f.data.length : Int) + 1) true = Except.error FileError.OutOfRange ∧
    fileSeek f 0 true = Except.ok { f with pos := 0 } ∧
    fileTell { f with pos := 0 } = 0 ∧
    (fileSeek f offset fromStart = Except.error FileError.OutOfRange ↔
      (if fromStart then offset else (f.pos : Int) + offset) < 0 ∨
        (f.data.length : Int) < if fromStart then offset else (f.pos : Int) + offset) := by
  refine ⟨?_, ?_, ?_, rfl, ?_⟩
  · simp [fileSeek]
  · have h1 : (f.data.length : Int) < (f.data.length : Int) + 1 := by omega
    simp [fileSeek, h1]
  · have h0 : ¬(f.data.length : Int) < 0 := by omega
    simp [fileSeek, h0, Int.toNat_zero]
  · by_cases hc : (if fromStart then offset else (f.pos : Int) + offset) < 0 ∨
      (f.data.length : Int) < if fromStart then offset else (f.pos : Int) + offset
    · simp only [fileSeek]
      rw [if_pos hc]
      simp [hc]
    · simp only [fileSeek]
      rw [if_neg hc]
      simp [hc]

end OpenJazzNX
